import Mathlib

/-!
Verification of the imapsync-go core against its specification.

The development shallowly embeds the Go sources:
* `internal/client` (resilient IMAP client: `safeCall`, `Reconnect`,
  `FetchMessageIDs`, `FetchMessagesByIDs`, `CreateMailbox`,
  `createParentFolders`, `getDelimiter`, `New`),
* `cmd/commands` sync planner and executor (`buildSyncPlan`, `Sync`
  pre-creation phase, `syncFolders`),
* `internal/config` (`New`, worker-count validation) together with the
  CLI `workers` flag default.

Network interactions are defunctionalized: each embedded operation takes
the outcomes of its primitive IMAP commands (select, fetch, list, dial)
as explicit arguments, and returns alongside its result a small trace
recording how many primitive attempts and how many reconnections were
performed, so that retry behaviour is provable.
-/

set_option autoImplicit false

namespace Imapsync

/-- Error classes that surface from the go-imap client, as distinguished by
`isConnError` in `internal/client`: `io.EOF`, `net.ErrClosed`, any
`net.Error`, and server responses / other errors which are not
connection-related. `reconnectFailed` models the error wrapping the final
transport error after `Reconnect` exhausts its attempts. -/
inductive ClientErr where
  | eof
  | netClosed
  | netOther
  | respNo (text : String)
  | respBad (text : String)
  | reconnectFailed (inner : ClientErr)
  deriving DecidableEq, Repr

/-- Function `isConnError` from `internal/client`: true for `io.EOF`, `net.ErrClosed`
and any `net.Error` (`errors.Is` / `errors.As` unwrap through `%w`
wrapping, hence the recursive case). -/
def isConnError : ClientErr → Bool
  | ClientErr.eof => true
  | ClientErr.netClosed => true
  | ClientErr.netOther => true
  | ClientErr.reconnectFailed inner => isConnError inner
  | ClientErr.respNo _ => false
  | ClientErr.respBad _ => false

/-- Trace of one wrapped client operation: how many times the underlying
IMAP operation (`fn` in `safeCall`, or the primitive commands of an
unwrapped helper) was attempted, and how many times `Reconnect` ran. -/
structure SafeTrace where
  fnCalls : Nat
  reconnects : Nat
  deriving DecidableEq, Repr

/-- Function `safeCall` from `internal/client`: run `fn` once; on success return;
on a connection-class error run `Reconnect` and, if it succeeds, run `fn`
exactly once more; a non-connection error is returned unchanged with no
reconnect. `first` is the outcome of the first `fn` call, `reconnectRes`
the outcome of `Reconnect` (`none` = success), `second` the outcome of
the retried `fn` call. -/
def safeCall (first : Option ClientErr) (reconnectRes : Option ClientErr)
    (second : Option ClientErr) : Option ClientErr × SafeTrace :=
  match first with
  | none => (none, ⟨1, 0⟩)
  | some e =>
    if isConnError e then
      match reconnectRes with
      | some rerr => (some rerr, ⟨1, 1⟩)
      | none => (second, ⟨2, 1⟩)
    else (some e, ⟨1, 0⟩)

/-- An IMAP envelope restricted to the field the sync cares about.
go-imap represents a missing Message-ID header as the empty string. -/
structure Envelope where
  messageId : String
  deriving DecidableEq, Repr

/-- A message as seen by the planner: server-assigned UID and an optional
envelope (`msg.Envelope` may be nil in go-imap). -/
structure Msg where
  uid : Nat
  envelope : Option Envelope
  deriving DecidableEq, Repr

/-- The cutset of Go `strings.Trim(s, "<>")`. -/
def isAngle (c : Char) : Bool := c = '<' || c = '>'

/-- Go `strings.Trim(s, "<>")`: drop every leading and trailing character
belonging to the cutset. -/
def trimAngle (s : String) : String :=
  String.mk (((s.data.dropWhile isAngle).reverse.dropWhile isAngle).reverse)

/-- The per-message step of `FetchMessageIDs`: a message contributes its
bracket-stripped Message-ID iff its envelope is present, the raw header is
non-empty, and the stripped value is non-empty. -/
def extractId (m : Msg) : Option String :=
  match m.envelope with
  | none => none
  | some env =>
    if env.messageId = "" then none
    else
      let t := trimAngle env.messageId
      if t = "" then none else some t

/-- The ID set produced by `FetchMessageIDs` over the messages of a folder
(`map[string]bool` in Go; here a list read up to membership). -/
def fetchMessageIDs (msgs : List Msg) : List String :=
  msgs.filterMap extractId

/-- Execution of `FetchMessageIDs folder`: it calls `c.Select` directly
(not `SafeSelect`), returns on a select error, answers the empty set when
the mailbox has no messages, and otherwise issues one `c.Fetch` (again not
wrapped in `safeCall`), propagating a fetch error. `msgs` is the folder
content reported by the server, `selectErr` / `fetchErr` inject primitive
failures. The trace counts primitive commands issued; no code path of
`FetchMessageIDs` invokes `Reconnect`. -/
def fetchMessageIDsRun (selectErr : Option ClientErr) (msgs : List Msg)
    (fetchErr : Option ClientErr) : Except ClientErr (List String) × SafeTrace :=
  match selectErr with
  | some e => (Except.error e, ⟨1, 0⟩)
  | none =>
    if msgs.length = 0 then (Except.ok [], ⟨1, 0⟩)
    else
      match fetchErr with
      | some e => (Except.error e, ⟨2, 0⟩)
      | none => (Except.ok (fetchMessageIDs msgs), ⟨2, 0⟩)

/-- The retention test of `FetchMessagesByIDs`' first pass: a message's UID
is kept iff its envelope is present, the Message-ID header is non-empty and
the bracket-stripped ID belongs to `target`. -/
def wantsMsg (target : List String) (m : Msg) : Bool :=
  match m.envelope with
  | none => false
  | some env => env.messageId != "" && target.contains (trimAngle env.messageId)

/-- Function `FetchMessagesByIDs` on a responsive server: empty target short-circuits
to `[]`; otherwise the envelope pass retains the UIDs passing `wantsMsg` and
the UID-fetch pass returns exactly the corresponding messages. -/
def fetchMessagesByIDs (msgs : List Msg) (target : List String) : List Msg :=
  if target.isEmpty then [] else msgs.filter (wantsMsg target)

/-- Execution of `FetchMessagesByIDs` with an injected primitive failure
(`errAt`): its select, envelope-fetch and body-fetch errors are all
propagated to the caller directly — like `FetchMessageIDs` it never calls
`safeCall` or `Reconnect`, so the trace records zero reconnects. -/
def fetchMessagesByIDsRun (errAt : Option ClientErr) (msgs : List Msg)
    (target : List String) : Except ClientErr (List Msg) × SafeTrace :=
  match errAt with
  | some e => (Except.error e, ⟨1, 0⟩)
  | none => (Except.ok (fetchMessagesByIDs msgs target), ⟨1, 0⟩)

/-- Predicate `charsStartsWith l pat`: `pat` is a prefix of `l` (Go's internal
prefix test used by `strings.Contains`). -/
def charsStartsWith : List Char → List Char → Bool
  | _, [] => true
  | [], _ :: _ => false
  | c :: cs, p :: ps => c == p && charsStartsWith cs ps

/-- Predicate `charsContain pat l`: some suffix of `l` starts with `pat`
(Go `strings.Contains` on rune lists). -/
def charsContain (pat : List Char) : List Char → Bool
  | [] => pat.isEmpty
  | c :: cs => charsStartsWith (c :: cs) pat || charsContain pat cs

/-- Go `strings.Contains(s, pat)`. -/
def containsSub (s pat : String) : Bool :=
  charsContain pat.data s.data

/-- The loop of `getDelimiter` in `internal/client`: starting from the
fallback `/`, take the first non-empty delimiter among the mailbox entries
answered by `LIST "" ""`; if every entry reports an empty delimiter (or
there is none), the fallback `/` stands. -/
def getDelimiter : List String → String
  | [] => "/"
  | d :: rest => if d = "" then getDelimiter rest else d

/-- The IMAP server as observed through LIST/CREATE: the set of existing
mailboxes and the delimiters its `LIST "" ""` answer currently reports. -/
structure Server where
  mailboxes : List String
  listDelims : List String
  deriving DecidableEq, Repr

/-- The delimiter state of `client.Client`: the `delimiter` field cached by
`New` at login. -/
structure Client where
  cachedDelim : String
  deriving DecidableEq, Repr

/-- Function `New` from `internal/client` (delimiter part): after connect and login it
issues `LIST "" ""` once and caches the resulting delimiter in
`c.delimiter`. -/
def clientNew (srv : Server) : Client :=
  ⟨getDelimiter srv.listDelims⟩

/-- Go `strings.Split` on rune lists with an explicit fuel argument to keep
the recursion structural (fuel `≥ s.length` makes the fuel-exhaustion
branch unreachable; `goSplit` supplies `s.length`). `acc` accumulates the
current field in reverse. `CreateMailbox` only calls this with a non-empty
delimiter, so the empty-delimiter behaviour (no split) is never exercised. -/
def splitCharsF (delim : List Char) : Nat → List Char → List Char → List (List Char)
  | _, [], acc => [acc.reverse]
  | 0, s, acc => [acc.reverse ++ s]
  | fuel + 1, c :: cs, acc =>
    if delim.isEmpty = false && charsStartsWith (c :: cs) delim then
      acc.reverse :: splitCharsF delim fuel ((c :: cs).drop delim.length) []
    else
      splitCharsF delim fuel cs (c :: acc)

/-- Go `strings.Split(s, delim)` for the non-empty delimiters the client
passes to it. -/
def goSplit (s delim : String) : List String :=
  (splitCharsF delim.data s.data.length s.data []).map (fun cs => String.mk cs)

/-- The proper-prefix chain walked by `createParentFolders`:
`parts := strings.Split(name, delimiter)` and, for `i = 1 .. len(parts)-1`,
the path `strings.Join(parts[:i], delimiter)`. -/
def parentPaths (name delim : String) : List String :=
  let parts := goSplit name delim
  (List.range' 1 (parts.length - 1)).map (fun i => String.intercalate delim (parts.take i))

/-- The loop body of `createParentFolders` applied to the listed parent
paths in order: under the per-path lock, check existence and CREATE the
path when missing. Returns the updated server and the list of CREATE
commands issued. -/
def ensureFolders (srv : Server) : List String → Server × List String
  | [] => (srv, [])
  | p :: rest =>
    if srv.mailboxes.contains p then ensureFolders srv rest
    else
      let next := ensureFolders ⟨p :: srv.mailboxes, srv.listDelims⟩ rest
      (next.1, p :: next.2)

/-- Function `createParentFolders` from `internal/client`. -/
def createParentFolders (srv : Server) (name delim : String) : Server × List String :=
  ensureFolders srv (parentPaths name delim)

/-- Result of `CreateMailbox`: the client state after the call (the method
never writes `c.delimiter`), the server state, the returned `created`
boolean, and the CREATE commands issued in order. -/
structure CreateResult where
  client : Client
  server : Server
  created : Bool
  creates : List String
  deriving DecidableEq, Repr

/-- Function `CreateMailbox` on a responsive server: under the path lock, return
`false` with no CREATE when the mailbox already exists; otherwise fetch (a
fresh) delimiter via `getDelimiter`, create the missing parents when the
name contains that delimiter, CREATE the full path and return `true`. -/
def createMailbox (cl : Client) (srv : Server) (name : String) : CreateResult :=
  if srv.mailboxes.contains name then ⟨cl, srv, false, []⟩
  else
    let delim := getDelimiter srv.listDelims
    let step :=
      if delim != "" && containsSub name delim then createParentFolders srv name delim
      else (srv, [])
    ⟨cl, ⟨name :: step.1.mailboxes, step.1.listDelims⟩, true, step.2 ++ [name]⟩

/-- Structure `FolderSyncPlan` from `cmd/commands`. -/
structure FolderSyncPlan where
  sourceFolder : String
  destinationFolder : String
  destinationFolderExists : Bool
  newMessages : Nat
  messagesToSync : List Msg
  deriving DecidableEq, Repr

/-- Structure `SyncSummary` from `cmd/commands`. -/
structure SyncSummary where
  totalNew : Nat
  plans : List FolderSyncPlan
  deriving DecidableEq, Repr

/-- One iteration's worth of inputs to the `buildSyncPlan` loop: the mapping
being processed and the outcomes of the three client calls it performs
(`FetchMessageIDs` on source and destination, and an injected failure for
`FetchMessagesByIDs`). A fetch succeeding returns the folder's messages. -/
structure MappingCase where
  source : String
  destination : String
  srcFetch : Except ClientErr (List Msg)
  dstFetch : Except ClientErr (List Msg)
  bodyErr : Option ClientErr
  deriving Repr

/-- Source-side ID set of a mapping iteration (empty when the fetch failed;
on failure the mapping is skipped before the set is used). -/
def srcIdsOf (mc : MappingCase) : List String :=
  match mc.srcFetch with
  | Except.ok msgs => fetchMessageIDs msgs
  | Except.error _ => []

/-- Destination-side ID set: `buildSyncPlan` initialises `dstMessageIDs` to
the empty map and only fills it when the destination fetch succeeds. -/
def dstIdsOf (mc : MappingCase) : List String :=
  match mc.dstFetch with
  | Except.ok msgs => fetchMessageIDs msgs
  | Except.error _ => []

/-- Value of `dstFolderExists` after the scan: false unless the destination fetch
succeeded. -/
def dstExistsOf (mc : MappingCase) : Bool :=
  match mc.dstFetch with
  | Except.ok _ => true
  | Except.error _ => false

/-- The `newIDs` loop of `buildSyncPlan`: IDs present in the source set and
absent from the destination set. -/
def newIds (srcIds dstIds : List String) : List String :=
  srcIds.filter (fun id => !(dstIds.contains id))

/-- Set `newIDs` for a mapping iteration. -/
def newIdsOf (mc : MappingCase) : List String :=
  newIds (srcIdsOf mc) (dstIdsOf mc)

/-- The messages materialised for a mapping by
`FetchMessagesByIDs(srcFolder, newIDs)`. -/
def selectedOf (mc : MappingCase) : List Msg :=
  match mc.srcFetch with
  | Except.ok msgs => fetchMessagesByIDs msgs (newIdsOf mc)
  | Except.error _ => []

/-- One iteration of the `buildSyncPlan` loop: a source fetch error skips
the mapping; an empty `newIDs` skips it; a `FetchMessagesByIDs` error is
fatal to the whole planning; otherwise a plan is appended when at least one
message was materialised and `TotalNew` grows by that count. -/
def buildStep (s : SyncSummary) (mc : MappingCase) : Except ClientErr SyncSummary :=
  match mc.srcFetch with
  | Except.error _ => Except.ok s
  | Except.ok _ =>
    if (newIdsOf mc).isEmpty then Except.ok s
    else
      match mc.bodyErr with
      | some e => Except.error e
      | none =>
        let msgs := selectedOf mc
        if 0 < msgs.length then
          Except.ok ⟨s.totalNew + msgs.length,
            s.plans ++ [⟨mc.source, mc.destination, dstExistsOf mc, msgs.length, msgs⟩]⟩
        else Except.ok s

/-- The `buildSyncPlan` mapping loop threading the summary accumulator. -/
def buildSyncPlanAux (s : SyncSummary) : List MappingCase → Except ClientErr SyncSummary
  | [] => Except.ok s
  | mc :: rest =>
    match buildStep s mc with
    | Except.error e => Except.error e
    | Except.ok s2 => buildSyncPlanAux s2 rest

/-- Function `buildSyncPlan` from `cmd/commands`, starting from the empty summary. -/
def buildSyncPlan (cases : List MappingCase) : Except ClientErr SyncSummary :=
  buildSyncPlanAux ⟨0, []⟩ cases

/-- Per-folder totals of one executor task (`syncFolders`): messages
successfully appended, append failures, and APPEND commands attempted. -/
structure FolderRun where
  synced : Nat
  errors : Nat
  appends : Nat
  deriving DecidableEq, Repr

/-- The per-message body of the `syncFolders` loop: every message is passed
to `AppendMessage`; a success bumps `syncedCount`, a failure bumps
`errorCount`. -/
def syncFoldersStep (acc : FolderRun) (ok : Bool) : FolderRun :=
  if ok then ⟨acc.synced + 1, acc.errors, acc.appends + 1⟩
  else ⟨acc.synced, acc.errors + 1, acc.appends + 1⟩

/-- Function `syncFolders` from `cmd/commands`: iterate over the plan's messages,
appending each one; `outcomes` records whether each `AppendMessage`
succeeded. The loop contains no cancellation check. -/
def syncFolders (outcomes : List Bool) : FolderRun :=
  outcomes.foldl syncFoldersStep ⟨0, 0, 0⟩

/-- Server text absorbed as success by the pre-creation phase. -/
def alreadyExistsText : String := "already exists"

/-- Second absorbed server text. -/
def mailboxExistsText : String := "Mailbox exists"

/-- The error filter of the pre-creation loop in `Sync`. -/
def isExistsError (msg : String) : Bool :=
  containsSub msg alreadyExistsText || containsSub msg mailboxExistsText

/-- One iteration of the pre-creation loop over `(createdCount, failedCount)`:
a successful `CreateMailbox` (whether it created or found the folder) counts
as created; an error whose text matches the filter counts as created; any
other error counts as failed. `result` is `none` on success and carries the
error text otherwise. -/
def preCreateStep (counts : Nat × Nat) (result : Option String) : Nat × Nat :=
  match result with
  | none => (counts.1 + 1, counts.2)
  | some msg => if isExistsError msg then (counts.1 + 1, counts.2) else (counts.1, counts.2 + 1)

/-- The pre-creation loop over all distinct destination folders. -/
def preCreateCounts (results : List (Option String)) : Nat × Nat :=
  results.foldl preCreateStep (0, 0)

/-- Outcome of the executor phase of `Sync`. -/
inductive RunOutcome where
  | folderCreationFailed (failed : Nat)
  | completed (synced : Nat) (errors : Nat)
  deriving DecidableEq, Repr

/-- The tail of `Sync` after planning: run pre-creation over the folder
results; when `failedCount > 0` abort with the folder-creation failure —
before the chunk loop, so zero APPENDs are attempted. Otherwise run every
plan's `syncFolders` and aggregate the totals. The second component counts
the APPEND commands attempted across all plans. -/
def execRun (createResults : List (Option String)) (plans : List (List Bool)) :
    RunOutcome × Nat :=
  let counts := preCreateCounts createResults
  if 0 < counts.2 then (RunOutcome.folderCreationFailed counts.2, 0)
  else
    let runs := plans.map syncFolders
    (RunOutcome.completed ((runs.map FolderRun.synced).sum) ((runs.map FolderRun.errors).sum),
      (runs.map FolderRun.appends).sum)

/-- The worker-count validation of `config.New`: a CLI value of `0` or above
`maxWorkers = 10` is replaced by `defaultWorkers = 1`; every other value —
including a negative one — is used as supplied. -/
def configWorkers (workers : Int) : Int :=
  if workers = 0 ∨ workers > 10 then 1 else workers

/-- The effective worker count: the CLI `workers` flag defaults to `4`
(`cmd/cmd.go`), so an absent flag reaches `config.New` as `4`. -/
def effectiveWorkers (cliWorkers : Option Int) : Int :=
  configWorkers (cliWorkers.getD 4)

/-- Modelled from the spec (claim C9): the executor task loop as the claim
describes it, checking the process-wide cancellation token between
messages. `cancelAt` is the number of between-message boundaries passed
before the token is observed signaled; the function returns how many
APPENDs such a loop would issue. This definition follows the claim's words
and exists only to be compared with `syncFolders`, which has no such
check. -/
def syncFoldersClaimed : Nat → List Bool → Nat
  | _, [] => 0
  | 0, _ :: _ => 0
  | n + 1, _ :: rest => 1 + syncFoldersClaimed n rest

/-! Section: Invariant predicates and concrete instances used by the theorems -/

/-- The per-plan invariant maintained by `buildSyncPlan`: a plan is only
appended when at least one message was materialised, its `NewMessages`
field is the length of `MessagesToSync`, and every materialised message
carries a non-empty bracket-stripped Message-ID. -/
def planMsgsOk (p : FolderSyncPlan) : Prop :=
  p.messagesToSync ≠ [] ∧ p.newMessages = p.messagesToSync.length ∧
  ∀ m ∈ p.messagesToSync, ∃ env, m.envelope = some env ∧
    env.messageId ≠ "" ∧ trimAngle env.messageId ≠ ""

/-- The summary invariant: every plan satisfies `planMsgsOk` and `TotalNew`
is the sum of the plans' message counts. -/
def summaryOk (s : SyncSummary) : Prop :=
  (∀ p ∈ s.plans, planMsgsOk p) ∧
  s.totalNew = (s.plans.map (fun p => p.messagesToSync.length)).sum

/-- A sample non-transport server response text. -/
def respNoText : String := "NO over quota"

/-- The empty string, as a named constant for witness statements. -/
def emptyS : String := ""

/-- The slash delimiter, as a named constant. -/
def slashS : String := "/"

/-- The dot delimiter, as a named constant. -/
def dotS : String := "."

/-- A folder name without any delimiter. -/
def existingW : String := "Archive"

/-- Sample source folder name. -/
def srcFolderW : String := "INBOX"

/-- Sample destination folder name. -/
def dstFolderW : String := "Backup"

/-- Sample raw Message-ID header value. -/
def midRawW : String := "<m1@x>"

/-- The bracket-stripped form of `midRawW`. -/
def midW : String := "m1@x"

/-- A raw Message-ID that strips to the empty string. -/
def emptyRawW : String := "<>"

/-- Sample message with a usable Message-ID. -/
def msgW : Msg := ⟨1, some ⟨midRawW⟩⟩

/-- Sample message whose Message-ID strips to empty. -/
def emptyIdMsgW : Msg := ⟨2, some ⟨emptyRawW⟩⟩

/-- Sample message without an envelope. -/
def noEnvMsgW : Msg := ⟨3, none⟩

/-- Sample folder content. -/
def msgsW : List Msg := [msgW, emptyIdMsgW, noEnvMsgW]

/-- Sample mapping iteration: source holds `msgW`, destination fetch fails. -/
def mcW : MappingCase :=
  ⟨srcFolderW, dstFolderW, Except.ok [msgW], Except.error ClientErr.eof, none⟩

/-- The plan `buildSyncPlan [mcW]` emits. -/
def planW : FolderSyncPlan := ⟨srcFolderW, dstFolderW, false, 1, [msgW]⟩

/-- The summary `buildSyncPlan [mcW]` produces. -/
def summaryW : SyncSummary := ⟨1, [planW]⟩

/-- Sample mapping iteration whose source fetch fails. -/
def mcErrW : MappingCase :=
  ⟨srcFolderW, dstFolderW, Except.error ClientErr.eof, Except.ok [], none⟩

/-- Sample mapping iteration whose body fetch fails. -/
def mcBodyW : MappingCase :=
  ⟨srcFolderW, dstFolderW, Except.ok [msgW], Except.ok [], some ClientErr.netClosed⟩

/-- A creation-error text matched by the pre-creation filter. -/
def dupFolderErrW : String := "create failed: folder already exists on server"

/-- A creation-error text not matched by the filter. -/
def fatalFolderErrW : String := "create failed: permission denied"

/-- Login-time server for the delimiter claims: `LIST "" ""` reports `.`. -/
def loginSrvDotW : Server := ⟨[], [dotS]⟩

/-- The same server later: `LIST "" ""` now reports `/`. -/
def createSrvSlashW : Server := ⟨[], [slashS]⟩

/-- A server whose `LIST "" ""` reports only empty delimiters. -/
def emptyDelimSrvW : Server := ⟨[], [emptyS, emptyS]⟩

/-- Server used by the create witness: slash delimiter, no mailboxes. -/
def slashSrvW : Server := ⟨[], [slashS]⟩

/-- Server that already holds the folder `existingW`. -/
def existingSrvW : Server := ⟨[existingW], [slashS]⟩

/-- Name split across one slash: parent chain `["a"]`. -/
def nameSlashW : String := "a/b"

/-- Name with a dot but no slash. -/
def nameDotW : String := "a.b"

/-- First path component of `nameSlashW`. -/
def aW : String := "a"

/-! Section: Basic lemmas about ID extraction and the planner's sets -/

theorem extractId_eq_some {m : Msg} {id : String} :
    extractId m = some id ↔
      ∃ env, m.envelope = some env ∧ env.messageId ≠ "" ∧
        trimAngle env.messageId = id ∧ id ≠ "" := by
  obtain ⟨uid, envelope⟩ := m
  cases envelope with
  | none => simp [extractId]
  | some env =>
    simp only [extractId, Option.some.injEq]
    by_cases h1 : env.messageId = ""
    · simp [h1]
    · by_cases h2 : trimAngle env.messageId = ""
      · simp only [if_neg h1, if_pos h2]
        constructor
        · intro h; exact absurd h (by simp)
        · rintro ⟨env2, henv, hne, htrim, hid⟩
          subst henv
          exact absurd (by rw [← htrim, h2]) hid
      · simp only [if_neg h1, if_neg h2]
        constructor
        · rintro ⟨rfl⟩
          exact ⟨env, rfl, h1, rfl, h2⟩
        · rintro ⟨env2, henv, _, htrim, _⟩
          subst henv
          exact congrArg some htrim

theorem mem_fetchMessageIDs {msgs : List Msg} {id : String} :
    id ∈ fetchMessageIDs msgs ↔ ∃ m ∈ msgs, extractId m = some id := by
  simp [fetchMessageIDs, List.mem_filterMap]

theorem ne_empty_of_mem_fetchMessageIDs {msgs : List Msg} {id : String}
    (h : id ∈ fetchMessageIDs msgs) : id ≠ "" := by
  obtain ⟨m, _, hm⟩ := mem_fetchMessageIDs.mp h
  obtain ⟨_, _, _, _, hne⟩ := extractId_eq_some.mp hm
  exact hne

theorem mem_newIds {src dst : List String} {id : String} :
    id ∈ newIds src dst ↔ id ∈ src ∧ id ∉ dst := by
  simp [newIds, List.mem_filter]

theorem mem_fetchMessagesByIDs {msgs : List Msg} {target : List String} {m : Msg} :
    m ∈ fetchMessagesByIDs msgs target ↔
      target ≠ [] ∧ m ∈ msgs ∧ wantsMsg target m = true := by
  by_cases ht : target.isEmpty
  · obtain rfl : target = [] := by simpa using ht
    simp [fetchMessagesByIDs]
  · have hne : target ≠ [] := by simpa using ht
    simp [fetchMessagesByIDs, ht, List.mem_filter, hne]

theorem wantsMsg_iff {target : List String} {m : Msg} :
    wantsMsg target m = true ↔
      ∃ env, m.envelope = some env ∧ env.messageId ≠ "" ∧
        trimAngle env.messageId ∈ target := by
  obtain ⟨uid, envelope⟩ := m
  cases envelope with
  | none => simp [wantsMsg]
  | some env => simp [wantsMsg]

theorem mem_ids_fetchMessagesByIDs {msgs : List Msg} {target : List String} {id : String} :
    id ∈ fetchMessageIDs (fetchMessagesByIDs msgs target) ↔
      id ∈ target ∧ id ∈ fetchMessageIDs msgs := by
  constructor
  · intro h
    obtain ⟨m, hmem, hext⟩ := mem_fetchMessageIDs.mp h
    obtain ⟨_, hmsgs, hwants⟩ := mem_fetchMessagesByIDs.mp hmem
    obtain ⟨env, henv, hne, htrim, hid⟩ := extractId_eq_some.mp hext
    obtain ⟨env2, henv2, _, htgt⟩ := wantsMsg_iff.mp hwants
    obtain rfl : env = env2 := by rw [henv] at henv2; injection henv2
    exact ⟨htrim ▸ htgt, mem_fetchMessageIDs.mpr ⟨m, hmsgs, hext⟩⟩
  · rintro ⟨htgt, hsrc⟩
    obtain ⟨m, hmem, hext⟩ := mem_fetchMessageIDs.mp hsrc
    obtain ⟨env, henv, hne, htrim, hid⟩ := extractId_eq_some.mp hext
    refine mem_fetchMessageIDs.mpr ⟨m, ?_, hext⟩
    refine mem_fetchMessagesByIDs.mpr ⟨?_, hmem, ?_⟩
    · rintro rfl; exact absurd htgt (List.not_mem_nil id)
    · exact wantsMsg_iff.mpr ⟨env, henv, hne, htrim ▸ htgt⟩

/-! Section: Claim C1 — reconnect wrapping of the Session verbs -/

/-- C1 (amended): the verbs routed through `safeCall` — select
(`SafeSelect`), search (`SafeSearch`), append (`AppendMessage`) and create
(`CreateMailbox`) — observe the claimed protocol: a transport-class error
triggers one reconnect and, when the reconnect succeeds, exactly one retry
of the original operation, while a non-transport error is returned without
any reconnect or retry. The verbs `fetch_ids` (`FetchMessageIDs`) and
`fetch_bodies_by_ids` (`FetchMessagesByIDs`) are not wrapped: every failure
of theirs, transport-class or not, is returned directly to the caller with
zero reconnects and no retry. -/
theorem reconnect_wrapping_c1 (e1 e2 rerr : ClientErr)
    (reconnectRes second selectErr fetchErr bodyErrAt : Option ClientErr)
    (msgs : List Msg) (target : List String) :
    (safeCall none reconnectRes second = (none, ⟨1, 0⟩)) ∧
    (isConnError e1 = true → safeCall (some e1) none second = (second, ⟨2, 1⟩)) ∧
    (isConnError e1 = true → safeCall (some e1) (some rerr) second = (some rerr, ⟨1, 1⟩)) ∧
    (isConnError e2 = false → safeCall (some e2) reconnectRes second = (some e2, ⟨1, 0⟩)) ∧
    ((fetchMessageIDsRun selectErr msgs fetchErr).2.reconnects = 0) ∧
    ((fetchMessagesByIDsRun bodyErrAt msgs target).2.reconnects = 0) := by
  refine ⟨rfl, fun h => by simp [safeCall, h], fun h => by simp [safeCall, h],
    fun h => by simp [safeCall, h], ?_, ?_⟩
  · cases selectErr with
    | some e => rfl
    | none =>
      by_cases hm : msgs.length = 0
      · simp [fetchMessageIDsRun, hm]
      · cases fetchErr with
        | some e => simp [fetchMessageIDsRun, hm]
        | none => simp [fetchMessageIDsRun, hm]
  · cases bodyErrAt with
    | some e => rfl
    | none => rfl

/-- Witness for C1: concrete instances of every branch of the amended
behaviour. -/
theorem reconnect_wrapping_c1_witness :
    safeCall (some ClientErr.eof) none none = (none, ⟨2, 1⟩) ∧
    safeCall (some ClientErr.eof) (some ClientErr.netClosed) none
      = (some ClientErr.netClosed, ⟨1, 1⟩) ∧
    safeCall (some (ClientErr.respNo respNoText)) none none
      = (some (ClientErr.respNo respNoText), ⟨1, 0⟩) ∧
    (fetchMessageIDsRun (some ClientErr.eof) [] none).2.reconnects = 0 := by
  have h := reconnect_wrapping_c1 ClientErr.eof (ClientErr.respNo respNoText)
    ClientErr.netClosed none none (some ClientErr.eof) none none [] []
  exact ⟨h.2.1 rfl, h.2.2.1 rfl, h.2.2.2.1 rfl, h.2.2.2.2.1⟩

/-- Counterexample for C1 as stated: `FetchMessageIDs` (the `fetch_ids`
verb) failing with the transport-class error `io.EOF` returns that error to
the caller after a single select attempt, with zero reconnects and zero
retries — the claimed reconnect-and-retry protocol does not run for this
verb. -/
theorem reconnect_wrapping_c1_counterexample :
    isConnError ClientErr.eof = true ∧
    fetchMessageIDsRun (some ClientErr.eof) [] none
      = (Except.error ClientErr.eof, ⟨1, 0⟩) ∧
    (fetchMessageIDsRun (some ClientErr.eof) [] none).2.reconnects = 0 :=
  ⟨rfl, rfl, rfl⟩

/-! Section: Claim C3 — effective worker count bounds -/

/-- C3 (amended): when the supplied workers value is non-negative the
effective worker count (used as the executor's chunk size) lies in
`[1, 10]` — `0` and values above `10` are replaced by `1`, values already
in `[1, 10]` pass through unchanged — and an absent workers value yields
`4` via the CLI flag default; a negative supplied value, however, is passed
through unchanged and falls outside `[1, 10]`. -/
theorem workers_bounds_c3 (w : Int) :
    (0 ≤ w → 1 ≤ effectiveWorkers (some w) ∧ effectiveWorkers (some w) ≤ 10) ∧
    (1 ≤ w → w ≤ 10 → effectiveWorkers (some w) = w) ∧
    effectiveWorkers none = 4 := by
  refine ⟨fun h0 => ?_, fun h1 h10 => ?_, rfl⟩
  · simp only [effectiveWorkers, configWorkers, Option.getD_some]
    split
    · omega
    · next hcond => push_neg at hcond; omega
  · simp only [effectiveWorkers, configWorkers, Option.getD_some]
    split
    · next hcond => omega
    · rfl

/-- Witness for C3 (amended) at the in-range value `7` and the absent
value. -/
theorem workers_bounds_c3_witness :
    (1 ≤ effectiveWorkers (some 7) ∧ effectiveWorkers (some 7) ≤ 10) ∧
    effectiveWorkers (some 7) = 7 ∧
    effectiveWorkers none = 4 := by
  have h := workers_bounds_c3 7
  exact ⟨h.1 (by decide), h.2.1 (by decide) (by decide), h.2.2⟩

/-- Counterexample for C3 as stated: the supplied value `-3` (legal for the
CLI integer flag and for `IMAPSYNC_WORKERS`) is neither `0` nor above
`maxWorkers`, so `config.New` stores it unchanged and the effective worker
count is `-3`, outside `[1, 10]`. -/
theorem workers_bounds_c3_counterexample :
    effectiveWorkers (some (-3)) = -3 ∧
    ¬ (1 ≤ effectiveWorkers (some (-3)) ∧ effectiveWorkers (some (-3)) ≤ 10) := by
  decide

/-! Section: Claim C9 — cancellation -/

/-- C9 (amended): the executor task loop (`syncFolders`) consults no
cancellation token: it attempts an APPEND for exactly every message of its
plan, regardless of any cancellation signal, and every message is accounted
as either synced or errored. -/
theorem executor_ignores_cancellation_c9 (outcomes : List Bool) :
    (syncFolders outcomes).appends = outcomes.length ∧
    (syncFolders outcomes).synced + (syncFolders outcomes).errors = outcomes.length := by
  have general : ∀ (l : List Bool) (acc : FolderRun),
      (l.foldl syncFoldersStep acc).appends = acc.appends + l.length ∧
      (l.foldl syncFoldersStep acc).synced + (l.foldl syncFoldersStep acc).errors
        = acc.synced + acc.errors + l.length := by
    intro l
    induction l with
    | nil => intro acc; simp
    | cons b rest ih =>
      intro acc
      have h := ih (syncFoldersStep acc b)
      cases b <;> simp only [List.foldl_cons] <;>
        simp [syncFoldersStep] at h ⊢ <;> omega
  have h := general outcomes ⟨0, 0, 0⟩
  simpa [syncFolders] using h

/-- Counterexample for C9 as stated: with a plan of two messages and the
cancellation token signaled before the first between-messages boundary, the
claimed loop (`syncFoldersClaimed`, written from the claim's words) issues
no APPEND, but `syncFolders` — which has no cancellation check at all —
issues both APPENDs. -/
theorem executor_ignores_cancellation_c9_counterexample :
    (syncFolders [true, true]).appends = 2 ∧
    syncFoldersClaimed 0 [true, true] = 0 := by
  decide

/-! Section: Planner step analysis -/

theorem buildStep_ok_elim {s : SyncSummary} {mc : MappingCase} {s2 : SyncSummary}
    (h : buildStep s mc = Except.ok s2) :
    s2 = s ∨
    (∃ msgs, mc.srcFetch = Except.ok msgs ∧ mc.bodyErr = none ∧
      0 < (selectedOf mc).length ∧
      s2 = ⟨s.totalNew + (selectedOf mc).length,
        s.plans ++ [⟨mc.source, mc.destination, dstExistsOf mc,
          (selectedOf mc).length, selectedOf mc⟩]⟩) := by
  cases hsrc : mc.srcFetch with
  | error e =>
    simp only [buildStep, hsrc, Except.ok.injEq] at h
    exact Or.inl h.symm
  | ok msgs =>
    simp only [buildStep, hsrc] at h
    by_cases hni : (newIdsOf mc).isEmpty
    · simp only [hni, if_true, Except.ok.injEq] at h
      exact Or.inl h.symm
    · simp only [hni, if_false, Bool.false_eq_true] at h
      cases hb : mc.bodyErr with
      | some e => rw [hb] at h; exact absurd h (by simp)
      | none =>
        rw [hb] at h
        by_cases hlen : 0 < (selectedOf mc).length
        · simp only [hlen, if_true, Except.ok.injEq] at h
          exact Or.inr ⟨msgs, rfl, rfl, hlen, h.symm⟩
        · simp only [hlen, if_false, Except.ok.injEq] at h
          exact Or.inl h.symm

theorem selectedOf_msgs_ok {mc : MappingCase} {m : Msg} (hm : m ∈ selectedOf mc) :
    ∃ env, m.envelope = some env ∧ env.messageId ≠ "" ∧
      trimAngle env.messageId ≠ "" := by
  cases hsrc : mc.srcFetch with
  | error e => rw [selectedOf, hsrc] at hm; exact absurd hm (List.not_mem_nil m)
  | ok msgs =>
    rw [selectedOf, hsrc] at hm
    obtain ⟨_, hmem, hw⟩ := mem_fetchMessagesByIDs.mp hm
    obtain ⟨env, henv, hne, htgt⟩ := wantsMsg_iff.mp hw
    refine ⟨env, henv, hne, ?_⟩
    have hsrcmem : trimAngle env.messageId ∈ srcIdsOf mc :=
      (mem_newIds.mp (by simpa [newIdsOf] using htgt)).1
    rw [srcIdsOf, hsrc] at hsrcmem
    exact ne_empty_of_mem_fetchMessageIDs hsrcmem

theorem buildStep_preserves_summaryOk {s : SyncSummary} {mc : MappingCase}
    {s2 : SyncSummary} (hok : summaryOk s) (h : buildStep s mc = Except.ok s2) :
    summaryOk s2 := by
  rcases buildStep_ok_elim h with heq | ⟨msgs, hsrc, hb, hlen, heq⟩
  · exact heq ▸ hok
  · subst heq
    constructor
    · intro p hp
      rcases List.mem_append.mp hp with hp | hp
      · exact hok.1 p hp
      · rw [List.mem_singleton.mp hp]
        refine ⟨?_, rfl, fun m hm => selectedOf_msgs_ok hm⟩
        intro hnil
        have h0 : selectedOf mc = [] := hnil
        rw [h0] at hlen
        exact absurd hlen (by simp)
    · simp only [List.map_append, List.sum_append, List.map_cons, List.map_nil,
        List.sum_cons, List.sum_nil]
      rw [hok.2]
      omega

theorem buildStep_plan_mem {s : SyncSummary} {mc : MappingCase} {s2 : SyncSummary}
    (h : buildStep s mc = Except.ok s2) {p : FolderSyncPlan} (hp : p ∈ s2.plans) :
    p ∈ s.plans ∨ p.destinationFolderExists = dstExistsOf mc := by
  rcases buildStep_ok_elim h with heq | ⟨msgs, _, _, _, heq⟩
  · exact Or.inl (heq ▸ hp)
  · subst heq
    rcases List.mem_append.mp hp with hp | hp
    · exact Or.inl hp
    · right; rw [List.mem_singleton.mp hp]

theorem buildSyncPlanAux_preserves_summaryOk :
    ∀ (cases : List MappingCase) (s s2 : SyncSummary), summaryOk s →
      buildSyncPlanAux s cases = Except.ok s2 → summaryOk s2 := by
  intro cases
  induction cases with
  | nil =>
    intro s s2 hok h
    simp only [buildSyncPlanAux, Except.ok.injEq] at h
    exact h ▸ hok
  | cons mc rest ih =>
    intro s s2 hok h
    simp only [buildSyncPlanAux] at h
    cases hstep : buildStep s mc with
    | error e => rw [hstep] at h; exact absurd h (by simp)
    | ok s1 =>
      rw [hstep] at h
      exact ih s1 s2 (buildStep_preserves_summaryOk hok hstep) h

theorem buildSyncPlan_summaryOk {cases : List MappingCase} {s : SyncSummary}
    (h : buildSyncPlan cases = Except.ok s) : summaryOk s := by
  refine buildSyncPlanAux_preserves_summaryOk cases ⟨0, []⟩ s ?_ h
  exact ⟨fun p hp => absurd hp (List.not_mem_nil p), rfl⟩

/-! Section: Claim C2 — the planner's differential selection -/

/-- C2: for a mapping whose source scan succeeded, the selected ID set
`newIDs` is exactly the source IDs minus the destination IDs; the IDs of
the materialised messages are exactly `newIDs`; and when the destination
fetch failed the destination set is empty and any plan the iteration emits
carries `destinationFolderExists = false`. -/
theorem planner_diff_c2 (mc : MappingCase) (srcMsgs : List Msg)
    (s s2 : SyncSummary) (id : String) (e : ClientErr)
    (hsrc : mc.srcFetch = Except.ok srcMsgs) :
    (id ∈ newIdsOf mc ↔ id ∈ fetchMessageIDs srcMsgs ∧ id ∉ dstIdsOf mc) ∧
    (id ∈ fetchMessageIDs (selectedOf mc) ↔ id ∈ newIdsOf mc) ∧
    (mc.dstFetch = Except.error e →
      dstIdsOf mc = [] ∧
      (buildStep s mc = Except.ok s2 →
        ∀ p ∈ s2.plans, p ∈ s.plans ∨ p.destinationFolderExists = false)) := by
  refine ⟨?_, ?_, fun hdst => ⟨?_, fun hstep p hp => ?_⟩⟩
  · simp only [newIdsOf, mem_newIds, srcIdsOf, hsrc]
  · rw [selectedOf, hsrc, mem_ids_fetchMessagesByIDs]
    constructor
    · exact fun h => h.1
    · intro h
      refine ⟨h, ?_⟩
      have := (mem_newIds.mp (by simpa [newIdsOf] using h)).1
      rw [srcIdsOf, hsrc] at this
      exact this
  · rw [dstIdsOf, hdst]
  · rcases buildStep_plan_mem hstep hp with hmem | hval
    · exact Or.inl hmem
    · right; rw [hval, dstExistsOf, hdst]

/-- Witness for C2 at a concrete mapping whose destination fetch fails. -/
theorem planner_diff_c2_witness :
    (midW ∈ newIdsOf mcW ↔ midW ∈ fetchMessageIDs [msgW] ∧ midW ∉ dstIdsOf mcW) ∧
    (midW ∈ fetchMessageIDs (selectedOf mcW) ↔ midW ∈ newIdsOf mcW) ∧
    dstIdsOf mcW = [] ∧
    (planW ∈ SyncSummary.plans ⟨0, []⟩ ∨ planW.destinationFolderExists = false) := by
  have h := planner_diff_c2 mcW [msgW] ⟨0, []⟩ summaryW midW ClientErr.eof rfl
  have h3 := h.2.2 rfl
  refine ⟨h.1, h.2.1, h3.1, h3.2 rfl planW ?_⟩
  simp [summaryW]

/-! Section: Claim C4 — per-mapping skip vs fatal body fetch -/

/-- C4: a source `fetch_ids` failure makes the loop skip exactly that
mapping — the accumulated summary is unchanged and planning continues with
the rest — while a `fetch_bodies_by_ids` failure (reached whenever the
source scan succeeded and `newIDs` is non-empty) aborts the whole planning
with that error, producing no summary. -/
theorem planner_failure_semantics_c4 (s : SyncSummary) (mc : MappingCase)
    (rest : List MappingCase) (e : ClientErr) (srcMsgs : List Msg) :
    (mc.srcFetch = Except.error e →
      buildSyncPlanAux s (mc :: rest) = buildSyncPlanAux s rest) ∧
    (mc.srcFetch = Except.ok srcMsgs → (newIdsOf mc).isEmpty = false →
      mc.bodyErr = some e →
      buildSyncPlanAux s (mc :: rest) = Except.error e) := by
  constructor
  · intro hsrc
    simp only [buildSyncPlanAux, buildStep, hsrc]
  · intro hsrc hni hb
    simp only [buildSyncPlanAux, buildStep, hsrc, hni, Bool.false_eq_true,
      if_false, hb]

/-- Witness for C4: a failing source scan is skipped; a failing body fetch
is fatal. -/
theorem planner_failure_semantics_c4_witness :
    buildSyncPlanAux ⟨0, []⟩ [mcErrW] = buildSyncPlanAux ⟨0, []⟩ [] ∧
    buildSyncPlanAux ⟨0, []⟩ [mcBodyW] = Except.error ClientErr.netClosed := by
  have h1 := (planner_failure_semantics_c4 ⟨0, []⟩ mcErrW [] ClientErr.eof []).1 rfl
  have h2 := (planner_failure_semantics_c4 ⟨0, []⟩ mcBodyW [] ClientErr.netClosed
    [msgW]).2 rfl (by decide) rfl
  exact ⟨h1, h2⟩

/-! Section: Claim C10 — summary invariants -/

/-- C10: every summary the planner returns satisfies: each plan's
`MessagesToSync` is non-empty, each plan's `NewMessages` equals the length
of its `MessagesToSync`, and `TotalNew` is the sum of those lengths. -/
theorem summary_invariant_c10 (cases : List MappingCase) (s : SyncSummary)
    (h : buildSyncPlan cases = Except.ok s) :
    (∀ p ∈ s.plans, p.messagesToSync ≠ [] ∧
      p.newMessages = p.messagesToSync.length) ∧
    s.totalNew = (s.plans.map (fun p => p.messagesToSync.length)).sum := by
  have hok := buildSyncPlan_summaryOk h
  exact ⟨fun p hp => ⟨(hok.1 p hp).1, (hok.1 p hp).2.1⟩, hok.2⟩

/-- Witness for C10 on the one-mapping run that emits `planW`. -/
theorem summary_invariant_c10_witness :
    (planW.messagesToSync ≠ [] ∧ planW.newMessages = planW.messagesToSync.length) ∧
    summaryW.totalNew = (summaryW.plans.map (fun p => p.messagesToSync.length)).sum := by
  have h := summary_invariant_c10 [mcW] summaryW rfl
  exact ⟨h.1 planW (by simp [summaryW]), h.2⟩

/-! Section: Claim C8 — fetch_ids semantics and exclusion of ID-less messages -/

/-- C8: `fetch_ids` returns exactly the bracket-stripped Message-IDs of the
folder's messages, skipping messages whose envelope or Message-ID header is
absent and those whose stripped value is empty; consequently the empty ID
never enters `newIDs`, and every message materialised into any plan (hence
every message the executor appends) carries a non-empty bracket-stripped
Message-ID. -/
theorem fetch_ids_semantics_c8 (msgs : List Msg) (id : String) (mc : MappingCase)
    (cases : List MappingCase) (s : SyncSummary) :
    (id ∈ fetchMessageIDs msgs ↔
      (id ≠ "" ∧ ∃ m ∈ msgs, ∃ env, m.envelope = some env ∧
        env.messageId ≠ "" ∧ trimAngle env.messageId = id)) ∧
    (id = "" → id ∉ newIdsOf mc) ∧
    (buildSyncPlan cases = Except.ok s →
      ∀ p ∈ s.plans, ∀ m ∈ p.messagesToSync,
        ∃ env, m.envelope = some env ∧ env.messageId ≠ "" ∧
          trimAngle env.messageId ≠ "") := by
  refine ⟨?_, ?_, fun h p hp m hm => (buildSyncPlan_summaryOk h).1 p hp |>.2.2 m hm⟩
  · rw [mem_fetchMessageIDs]
    constructor
    · rintro ⟨m, hmem, hext⟩
      obtain ⟨env, henv, hne, htrim, hid⟩ := extractId_eq_some.mp hext
      exact ⟨hid, m, hmem, env, henv, hne, htrim⟩
    · rintro ⟨hid, m, hmem, env, henv, hne, htrim⟩
      exact ⟨m, hmem, extractId_eq_some.mpr ⟨env, henv, hne, htrim, hid⟩⟩
  · intro hid hmem
    have := (mem_newIds.mp (by simpa [newIdsOf] using hmem)).1
    cases hsrc : mc.srcFetch with
    | error e => rw [srcIdsOf, hsrc] at this; exact absurd this (List.not_mem_nil id)
    | ok m2 =>
      rw [srcIdsOf, hsrc] at this
      exact ne_empty_of_mem_fetchMessageIDs this hid

/-- Witness for C8 on a folder holding one usable message, one message whose
ID strips to empty, and one message without an envelope. -/
theorem fetch_ids_semantics_c8_witness :
    (midW ∈ fetchMessageIDs msgsW ↔
      (midW ≠ "" ∧ ∃ m ∈ msgsW, ∃ env, m.envelope = some env ∧
        env.messageId ≠ "" ∧ trimAngle env.messageId = midW)) ∧
    emptyS ∉ newIdsOf mcW ∧
    (∃ env, msgW.envelope = some env ∧ env.messageId ≠ "" ∧
      trimAngle env.messageId ≠ "") := by
  have h1 := fetch_ids_semantics_c8 msgsW midW mcW [mcW] summaryW
  have h2 := fetch_ids_semantics_c8 msgsW emptyS mcW [mcW] summaryW
  refine ⟨h1.1, h2.2.1 rfl, ?_⟩
  exact h1.2.2 rfl planW (by simp [summaryW]) msgW (by simp [summaryW, planW])

/-! Section: Claim C5 — pre-creation error absorption and abort -/

/-- C5: in the pre-creation phase a creation error whose text contains
"already exists" or "Mailbox exists" is counted as success
(`createdCount`), any other creation error increments the fatal counter
(`failedCount`), and a non-zero fatal counter after all folders were
attempted aborts the run with the folder-creation failure before a single
APPEND is attempted. -/
theorem precreate_semantics_c5 (counts : Nat × Nat) (msg : String)
    (createResults : List (Option String)) (plans : List (List Bool)) :
    (isExistsError msg = true →
      preCreateStep counts (some msg) = (counts.1 + 1, counts.2)) ∧
    (isExistsError msg = false →
      preCreateStep counts (some msg) = (counts.1, counts.2 + 1)) ∧
    preCreateStep counts none = (counts.1 + 1, counts.2) ∧
    (0 < (preCreateCounts createResults).2 →
      execRun createResults plans
        = (RunOutcome.folderCreationFailed (preCreateCounts createResults).2, 0)) := by
  refine ⟨fun h => by simp [preCreateStep, h], fun h => by simp [preCreateStep, h],
    rfl, fun h => by simp [execRun, h]⟩

/-- Witness for C5: an "already exists" error is absorbed, a different error
is fatal, and one fatal error aborts the run with zero APPENDs attempted
although a two-message plan was pending. -/
theorem precreate_semantics_c5_witness :
    preCreateStep (0, 0) (some dupFolderErrW) = (1, 0) ∧
    preCreateStep (0, 0) (some fatalFolderErrW) = (0, 1) ∧
    execRun [some fatalFolderErrW] [[true, true]]
      = (RunOutcome.folderCreationFailed 1, 0) := by
  have h1 := precreate_semantics_c5 (0, 0) dupFolderErrW [some fatalFolderErrW]
    [[true, true]]
  have h2 := precreate_semantics_c5 (0, 0) fatalFolderErrW [some fatalFolderErrW]
    [[true, true]]
  exact ⟨h1.1 (by decide), h2.2.1 (by decide), h1.2.2.2 (by decide)⟩

/-! Section: Claim C6 — CreateMailbox and the parent chain -/

theorem getDelimiter_ne_empty : ∀ ds : List String, getDelimiter ds ≠ "" := by
  intro ds
  induction ds with
  | nil => simp [getDelimiter]
  | cons d rest ih =>
    simp only [getDelimiter]
    by_cases h : d = ""
    · simpa [h] using ih
    · simp [h]

theorem contains_iff {l : List String} {a : String} :
    l.contains a = true ↔ a ∈ l := List.elem_iff

theorem getDelimiter_all_empty :
    ∀ ds : List String, (∀ d ∈ ds, d = "") → getDelimiter ds = "/" := by
  intro ds
  induction ds with
  | nil => intro _; rfl
  | cons d rest ih =>
    intro hall
    have hd : d = "" := hall d (by simp)
    simp only [getDelimiter, hd, if_pos]
    exact ih (fun x hx => hall x (by simp [hx]))

theorem ensureFolders_mono {paths : List String} {srv : Server} {q : String}
    (h : q ∈ srv.mailboxes) :
    q ∈ (ensureFolders srv paths).1.mailboxes := by
  induction paths generalizing srv with
  | nil => exact h
  | cons p rest ih =>
    simp only [ensureFolders]
    by_cases hp : p ∈ srv.mailboxes
    · simp only [hp, contains_iff, if_true]
      exact ih h
    · simp only [hp, contains_iff, if_false]
      exact ih (List.mem_cons_of_mem p h)

theorem ensureFolders_mem {paths : List String} {srv : Server} {p : String}
    (h : p ∈ paths) : p ∈ (ensureFolders srv paths).1.mailboxes := by
  induction paths generalizing srv with
  | nil => exact absurd h (List.not_mem_nil p)
  | cons q rest ih =>
    simp only [ensureFolders]
    rcases List.mem_cons.mp h with rfl | h2
    · by_cases hq : p ∈ srv.mailboxes
      · simp only [hq, contains_iff, if_true]
        exact ensureFolders_mono hq
      · simp only [hq, contains_iff, if_false]
        exact ensureFolders_mono (List.mem_cons_self p srv.mailboxes)
    · by_cases hq : q ∈ srv.mailboxes
      · simp only [hq, contains_iff, if_true]
        exact ih h2
      · simp only [hq, contains_iff, if_false]
        exact ih h2

theorem splitCharsF_no_contain {delim : List Char} :
    ∀ (fuel : Nat) (s acc : List Char), charsContain delim s = false →
      splitCharsF delim fuel s acc = [acc.reverse ++ s] := by
  intro fuel
  induction fuel with
  | zero =>
    intro s acc h
    cases s with
    | nil => simp [splitCharsF]
    | cons c cs => simp [splitCharsF]
  | succ n ih =>
    intro s acc h
    cases s with
    | nil => simp [splitCharsF]
    | cons c cs =>
      have h1 : charsStartsWith (c :: cs) delim = false := by
        simp only [charsContain, Bool.or_eq_false_iff] at h
        exact h.1
      have h2 : charsContain delim cs = false := by
        simp only [charsContain, Bool.or_eq_false_iff] at h
        exact h.2
      simp only [splitCharsF, h1, Bool.and_false, Bool.false_eq_true, if_false]
      rw [ih cs (c :: acc) h2]
      simp

theorem goSplit_no_contain {name delim : String}
    (h : containsSub name delim = false) : goSplit name delim = [name] := by
  rw [containsSub] at h
  rw [goSplit, splitCharsF_no_contain name.data.length name.data [] h]
  rfl

theorem parentPaths_no_contain {name delim : String}
    (h : containsSub name delim = false) : parentPaths name delim = [] := by
  simp [parentPaths, goSplit_no_contain h]

/-- C6 (amended): `CreateMailbox` returns `false` with no error and no
CREATE command when the folder already exists; otherwise it ensures every
proper prefix of the path — obtained by splitting on the delimiter
re-fetched from the server by `getDelimiter` during the call (not the
cached one) — exists, then creates the full path, returning `true`, with
the full path the last CREATE issued. -/
theorem create_mailbox_c6 (cl : Client) (srv : Server) (name : String) :
    (name ∈ srv.mailboxes →
      createMailbox cl srv name = ⟨cl, srv, false, []⟩) ∧
    (name ∉ srv.mailboxes →
      (createMailbox cl srv name).created = true ∧
      name ∈ (createMailbox cl srv name).server.mailboxes ∧
      (createMailbox cl srv name).creates.getLast? = some name ∧
      (∀ p ∈ parentPaths name (getDelimiter srv.listDelims),
        p ∈ (createMailbox cl srv name).server.mailboxes)) := by
  constructor
  · intro h
    simp [createMailbox, h]
  · intro h
    refine ⟨by simp [createMailbox, h], by simp [createMailbox, h],
      by simp [createMailbox, h, List.getLast?_concat], ?_⟩
    intro p hp
    by_cases hc : containsSub name (getDelimiter srv.listDelims) = true
    · have hne := getDelimiter_ne_empty srv.listDelims
      have hbne : (getDelimiter srv.listDelims != "") = true := by
        simp [bne_iff_ne, hne]
      simp only [createMailbox, h, contains_iff, if_false, hc, hbne,
        createParentFolders, Bool.and_self, if_true, List.mem_cons]
      exact Or.inr (ensureFolders_mem hp)
    · rw [parentPaths_no_contain (by simpa using hc)] at hp
      exact absurd hp (List.not_mem_nil p)

/-- Witness for C6 (amended): creating `a/b` on a slash-delimiter server
creates the parent `a` first and the full path last; creating an existing
folder returns `false` with no CREATE. -/
theorem create_mailbox_c6_witness :
    createMailbox (clientNew existingSrvW) existingSrvW existingW
      = ⟨clientNew existingSrvW, existingSrvW, false, []⟩ ∧
    (createMailbox (clientNew slashSrvW) slashSrvW nameSlashW).created = true ∧
    (createMailbox (clientNew slashSrvW) slashSrvW nameSlashW).creates.getLast?
      = some nameSlashW ∧
    (createMailbox (clientNew slashSrvW) slashSrvW nameSlashW).server.mailboxes.contains aW
      = true := by
  have h1 := (create_mailbox_c6 (clientNew existingSrvW) existingSrvW existingW).1
    (by decide)
  have h2 := (create_mailbox_c6 (clientNew slashSrvW) slashSrvW nameSlashW).2
    (by decide)
  refine ⟨h1, h2.1, h2.2.2.1, ?_⟩
  have := h2.2.2.2 aW (by decide)
  simpa [contains_iff] using this

/-- Counterexample for C6 as stated: a Session that cached the delimiter
`.` at login (first `LIST "" ""` answer) later creates `a.b` against the
server, whose `LIST "" ""` now answers `/`. Splitting on the *cached*
delimiter yields the proper prefix `a`, but the code splits on the freshly
fetched delimiter, finds no `/` in `a.b`, issues the single CREATE `a.b`
and never ensures `a` — so the parent chain of the claim is not created. -/
theorem create_mailbox_c6_counterexample :
    (clientNew loginSrvDotW).cachedDelim = dotS ∧
    parentPaths nameDotW (clientNew loginSrvDotW).cachedDelim = [aW] ∧
    (createMailbox (clientNew loginSrvDotW) createSrvSlashW nameDotW).creates
      = [nameDotW] ∧
    (createMailbox (clientNew loginSrvDotW) createSrvSlashW nameDotW).server.mailboxes.contains aW
      = false := by
  decide

/-! Section: Claim C7 — the cached delimiter -/

/-- C7: the delimiter is cached exactly once, at login, from the response to
the `LIST "" ""` issued by `New`: the first non-empty delimiter the server
reports, with fallback `/` when the server reports only empty delimiters
(in particular a single empty one); no later operation mutates the cached
value (`CreateMailbox`, the only delimiter-adjacent verb, returns the
client state unchanged). -/
theorem delimiter_cached_once_c7 (srv : Server) (cl : Client) (name d : String)
    (rest : List String) :
    (clientNew srv).cachedDelim = getDelimiter srv.listDelims ∧
    ((∀ d2 ∈ srv.listDelims, d2 = "") → (clientNew srv).cachedDelim = "/") ∧
    (srv.listDelims = d :: rest → d ≠ "" → (clientNew srv).cachedDelim = d) ∧
    (createMailbox cl srv name).client = cl := by
  refine ⟨rfl, fun hall => ?_, fun hcons hne => ?_, ?_⟩
  · exact getDelimiter_all_empty srv.listDelims hall
  · show getDelimiter srv.listDelims = d
    rw [hcons]
    simp [getDelimiter, hne]
  · by_cases h : name ∈ srv.mailboxes
    · simp [createMailbox, h]
    · simp [createMailbox, h]

/-- Witness for C7: a server answering only empty delimiters caches `/`; a
server answering `.` first caches `.`; `CreateMailbox` leaves the client
unchanged. -/
theorem delimiter_cached_once_c7_witness :
    (clientNew emptyDelimSrvW).cachedDelim = "/" ∧
    (clientNew loginSrvDotW).cachedDelim = dotS ∧
    (createMailbox (clientNew slashSrvW) slashSrvW nameSlashW).client
      = clientNew slashSrvW := by
  have h1 := delimiter_cached_once_c7 emptyDelimSrvW (clientNew slashSrvW)
    nameSlashW emptyS []
  have h2 := delimiter_cached_once_c7 loginSrvDotW (clientNew slashSrvW)
    nameSlashW dotS []
  have h3 := delimiter_cached_once_c7 slashSrvW (clientNew slashSrvW)
    nameSlashW slashS []
  exact ⟨h1.2.1 (by decide), h2.2.2.1 (by decide) (by decide), h3.2.2.2⟩

end Imapsync
